import Mathlib

/-!
Verification development for the fiber context-switch primitive
(`source/CortexContextSwitch.s`: `swap_context`, `save_context`) and the
message-bus dispatch engine (`MicroBitMessageBus::listen` / `::send`,
`MicroBitMessageBus::MicroBitMessageBus`, `MicroBitListener::MicroBitListener`).

The embedding follows the C++ and ARM assembly sources directly:
* listener registries are singly linked lists, embedded as `List`;
* the dispatch trace of a `send` call is the list of listeners for which
  `create_fiber(l->cb)` is requested, in request order;
* the Cortex-M0 machine is a record of the thirteen general registers,
  `sp`, `lr`, and a word-addressed memory (byte addresses divided by 4;
  the assembly only ever moves aligned words), with all address arithmetic
  performed modulo the 2^30-word address space.
-/

/-- Modelled from the spec: the reserved "any source" sentinel
`MICROBIT_BUS_ID_ANY`.  The message-bus header that defines the numeric
value is not part of the provided sources; the repository's headers use 0,
and the spec only requires a reserved sentinel. -/
def MICROBIT_BUS_ID_ANY : Int := 0

/-- Modelled from the spec: the reserved "any value" sentinel
`MICROBIT_BUS_VALUE_ANY` (value 0 in the repository's headers, which are
absent from the provided sources). -/
def MICROBIT_BUS_VALUE_ANY : Int := 0

/-- One `MicroBitListener` node: source id, value filter and the callback
(function pointers are represented by an opaque numeric identity).  The
`next` link of the C++ struct is represented by list structure. -/
structure MicroBitListener where
  id : Int
  value : Int
  cb : Nat
deriving DecidableEq, Repr

/-- The two fields of `MicroBitEvent` that `MicroBitMessageBus::send`
reads (`evt->source`, `evt->value`). -/
structure MicroBitEvent where
  source : Int
  value : Int
deriving DecidableEq, Repr

/-- A `MicroBitMessageBusCache`: `ptr` is the listener node the cache
points at, embedded as the chain hanging off that node; `seq` is the
registry version captured with it. -/
structure MicroBitMessageBusCache where
  ptr : List MicroBitListener
  seq : Nat
deriving DecidableEq, Repr

/-- The `MicroBitMessageBus` state: the listener chain rooted at
`listeners` and the sequence counter `seq`. -/
structure MicroBitMessageBus where
  listeners : List MicroBitListener
  seq : Nat
deriving DecidableEq, Repr

/-- `MicroBitMessageBus::MicroBitMessageBus()`: `listeners = NULL`,
`seq = 0`. -/
def MicroBitMessageBus.new : MicroBitMessageBus := ⟨[], 0⟩

/-- The first scan of `MicroBitMessageBus::listen`: walk the chain while
`l->id <= id` and report whether some node satisfies
`l->cb == handler && (l->id == id || l->id == ANY) &&
(l->value == value || l->value == ANY)` (in which case `listen` returns
without touching the registry). -/
def dedupScan (ls : List MicroBitListener) (id value : Int) (cb : Nat) : Bool :=
  match ls with
  | [] => false
  | l :: rest =>
    if l.id ≤ id then
      if l.cb = cb ∧ (l.id = id ∨ l.id = MICROBIT_BUS_ID_ANY) ∧
          (l.value = value ∨ l.value = MICROBIT_BUS_VALUE_ANY) then
        true
      else
        dedupScan rest id value cb
    else
      false

/-- The insertion-point predicate of the second scan of `listen`:
`l->id <= id && l->value <= value`. -/
def insertScanPred (id value : Int) (l : MicroBitListener) : Bool :=
  decide (l.id ≤ id) && decide (l.value ≤ value)

/-- `MicroBitMessageBus::listen(id, value, handler)`.  If the dedup scan
hits, the call returns with the bus untouched.  Otherwise `p` is the last
node of the longest prefix satisfying `insertScanPred`; when `p == NULL`
the code executes `listeners = newListener` — and since the constructor
set `newListener->next = NULL`, the previous chain is dropped; when
`p != NULL` the node is spliced in after `p`.  `seq` is incremented once
on every non-dedup path. -/
def MicroBitMessageBus.listen (bus : MicroBitMessageBus) (id value : Int) (cb : Nat) :
    MicroBitMessageBus :=
  if dedupScan bus.listeners id value cb then
    bus
  else
    let pre := bus.listeners.takeWhile (insertScanPred id value)
    let post := bus.listeners.dropWhile (insertScanPred id value)
    if pre.isEmpty then
      { listeners := [⟨id, value, cb⟩], seq := bus.seq + 1 }
    else
      { listeners := pre ++ ⟨id, value, cb⟩ :: post, seq := bus.seq + 1 }

/-- `MicroBitMessageBus::send(evt, c)`.  Returns the dispatch trace (the
listeners passed to `create_fiber`, in order) and the final contents of
the supplied cache.  Mirrors the four steps of the source: cached or
linear lookup of the sublist start, the source-specific walk with the
value-filter test, the walk of the head run of `MICROBIT_BUS_ID_ANY`
listeners (no value test in the source), and the stale-cache update. -/
def MicroBitMessageBus.send (bus : MicroBitMessageBus) (evt : MicroBitEvent)
    (c : Option MicroBitMessageBusCache) :
    List MicroBitListener × Option MicroBitMessageBusCache :=
  let start :=
    match c with
    | some cc =>
      if cc.seq = bus.seq then cc.ptr
      else bus.listeners.dropWhile (fun l => decide (l.id ≠ evt.source))
    | none => bus.listeners.dropWhile (fun l => decide (l.id ≠ evt.source))
  let sourceSpawns :=
    (start.takeWhile (fun l => decide (l.id = evt.source))).filter
      (fun l => decide (l.value = MICROBIT_BUS_VALUE_ANY ∨ l.value = evt.value))
  let anySpawns :=
    bus.listeners.takeWhile (fun l => decide (l.id = MICROBIT_BUS_ID_ANY))
  let cFinal :=
    match c with
    | none => none
    | some cc => if cc.seq ≠ bus.seq then some ⟨start, bus.seq⟩ else some cc
  (sourceSpawns ++ anySpawns, cFinal)

/-- Registry order required by the spec: ascending by source id, ties
ascending by value filter. -/
def RegistrySorted (ls : List MicroBitListener) : Prop :=
  ls.Pairwise (fun a b => a.id < b.id ∨ (a.id = b.id ∧ a.value ≤ b.value))

instance (ls : List MicroBitListener) : Decidable (RegistrySorted ls) := by
  unfold RegistrySorted; infer_instance

/-- The spec's matching relation for dispatch: a listener matches an
event when its source id equals the event source (or the any-source
sentinel) and its value filter equals the event value (or the any-value
sentinel). -/
def specMatches (l : MicroBitListener) (evt : MicroBitEvent) : Prop :=
  (l.id = evt.source ∨ l.id = MICROBIT_BUS_ID_ANY) ∧
    (l.value = evt.value ∨ l.value = MICROBIT_BUS_VALUE_ANY)

instance (l : MicroBitListener) (evt : MicroBitEvent) : Decidable (specMatches l evt) := by
  unfold specMatches; infer_instance

/-! ## The Cortex-M0 machine model for `CortexContextSwitch.s`

Word-addressed memory: byte address `4*a` is word cell `a`.  The byte
address space has 2^32 addresses, so the word address space has
`W = 2^30` cells and all pointer arithmetic is modulo `W` (the assembly
decrements byte pointers by 4 with 32-bit wraparound).  The fixed top of
the system stack is byte address `0x20004000`, i.e. word cell `topW`.
The TCB layout of the source uses byte offsets 0,4,...,56, i.e. word
offsets 0..14: slots 0-7 hold R0-R7, slots 8-12 hold R8-R12, slot 13
holds SP and slot 14 holds LR. -/

/-- Number of word cells in the 32-bit address space. -/
def W : Nat := 1073741824

/-- Word address of the top of the system stack space (byte address
`0x20004000`, built by the assembly as `0x20 << 24 | 0x40 << 8`). -/
def topW : Nat := 134221824

/-- Word-addressed memory. -/
def Mem : Type := Nat → Nat

/-- Load the word at cell `a` (addresses reduced into the address space). -/
def memRead (m : Mem) (a : Nat) : Nat := m (a % W)

/-- Store `v` at cell `a`. -/
def memWrite (m : Mem) (a v : Nat) : Mem :=
  fun c => if c = a % W then v else m c

/-- Decrement a word pointer by one cell (a `SUBS #4` on the byte
pointer, with 32-bit wraparound). -/
def wsub1 (x : Nat) : Nat := (x % W + W - 1) % W

/-- The machine state visible to `swap_context` / `save_context`: the
thirteen general-purpose registers, the stack pointer, the link register
and memory. -/
structure MachState where
  r0 : Nat
  r1 : Nat
  r2 : Nat
  r3 : Nat
  r4 : Nat
  r5 : Nat
  r6 : Nat
  r7 : Nat
  r8 : Nat
  r9 : Nat
  r10 : Nat
  r11 : Nat
  r12 : Nat
  sp : Nat
  lr : Nat
  mem : Mem

/-- The value the register-save sequence stores into TCB word slot `i`. -/
def slotVal (s : MachState) : Nat → Nat
  | 0 => s.r0
  | 1 => s.r1
  | 2 => s.r2
  | 3 => s.r3
  | 4 => s.r4
  | 5 => s.r5
  | 6 => s.r6
  | 7 => s.r7
  | 8 => s.r8
  | 9 => s.r9
  | 10 => s.r10
  | 11 => s.r11
  | 12 => s.r12
  | 13 => s.sp
  | 14 => s.lr
  | _ => 0

/-- The fifteen `STR` instructions that write the outgoing register file
into the TCB at `t` (word slots `t .. t+14`).  The cells are written in
increasing slot order in the source; this function gives each cell the
value of the last store that hits it, which coincides with the
sequential result. -/
def storeTCB (m : Mem) (t : Nat) (s : MachState) : Mem :=
  fun c =>
    if c = (t + 14) % W then s.lr
    else if c = (t + 13) % W then s.sp
    else if c = (t + 12) % W then s.r12
    else if c = (t + 11) % W then s.r11
    else if c = (t + 10) % W then s.r10
    else if c = (t + 9) % W then s.r9
    else if c = (t + 8) % W then s.r8
    else if c = (t + 7) % W then s.r7
    else if c = (t + 6) % W then s.r6
    else if c = (t + 5) % W then s.r5
    else if c = (t + 4) % W then s.r4
    else if c = (t + 3) % W then s.r3
    else if c = (t + 2) % W then s.r2
    else if c = (t + 1) % W then s.r1
    else if c = t % W then s.r0
    else m c

/-- The copy loops of the source (`store_stack`, `restore_stack`,
`store_stack1`), run for `n` iterations: each iteration decrements both
pointers by one cell and copies `[src]` to `[dst]` (`SUBS`, `SUBS`,
`LDR`, `STR`). -/
def copyLoop : Nat → Nat → Nat → Mem → Mem
  | 0, _, _, m => m
  | n + 1, dst, src, m =>
    let d := wsub1 dst
    let s := wsub1 src
    copyLoop n d s (memWrite m d (memRead m s))

/-- The number of iterations the do-while copy loops perform when the
terminating comparison register holds `sp`: the counter starts at `topW`
and is decremented before each comparison, so the loop body runs until
the counter first re-equals `sp` — `topW - sp` iterations for a live
stack, and a full `W`-step wrap of the address space when `sp = topW`. -/
def iterCount (sp : Nat) : Nat :=
  let d := (topW + W - sp % W) % W
  if d = 0 then W else d

/-- The outgoing half of `swap_context`: store the register file into the
TCB at `R0`, then copy the live stack (every word from `SP` up to
`topW`) into the outgoing stack buffer ending at `R2`. -/
def swapOutgoing (st : MachState) : Mem :=
  copyLoop (iterCount st.sp) st.r2 topW (storeTCB st.mem st.r0 st)

/-- `swap_context(R0 = outgoing TCB, R1 = incoming TCB, R2 = outgoing
stack base, R3 = incoming stack base)`: the outgoing half above, then
`LR` and `SP` are loaded from the incoming TCB at `R1`, the incoming
stack slice is copied from the buffer ending at `R3` back under `topW`,
and finally all general registers are reloaded from the incoming TCB
(`R1` itself last). -/
def swapContext (st : MachState) : MachState :=
  let m2 := swapOutgoing st
  let lrIn := memRead m2 (st.r1 + 14)
  let spIn := memRead m2 (st.r1 + 13)
  let m3 := copyLoop (iterCount spIn) topW st.r3 m2
  { r0 := memRead m3 st.r1
    r1 := memRead m3 (st.r1 + 1)
    r2 := memRead m3 (st.r1 + 2)
    r3 := memRead m3 (st.r1 + 3)
    r4 := memRead m3 (st.r1 + 4)
    r5 := memRead m3 (st.r1 + 5)
    r6 := memRead m3 (st.r1 + 6)
    r7 := memRead m3 (st.r1 + 7)
    r8 := memRead m3 (st.r1 + 8)
    r9 := memRead m3 (st.r1 + 9)
    r10 := memRead m3 (st.r1 + 10)
    r11 := memRead m3 (st.r1 + 11)
    r12 := memRead m3 (st.r1 + 12)
    sp := spIn
    lr := lrIn
    mem := m3 }

/-- `save_context(R0 = TCB, R1 = stack base)`: identical register-file
and stack capture to the outgoing half of `swap_context` (with the stack
buffer argument carried in `R1` instead of `R2`), after which only the
scratch registers R4-R7 are reloaded from the TCB and control returns to
the caller: `SP`, `LR` and the remaining registers keep their entry
values, except `R1`, which the copy loop has decremented once per copied
word. -/
def saveContext (st : MachState) : MachState :=
  let n := iterCount st.sp
  let m2 := copyLoop n st.r1 topW (storeTCB st.mem st.r0 st)
  { r0 := st.r0
    r1 := (st.r1 % W + W - n % W) % W
    r2 := st.r2
    r3 := st.r3
    r4 := memRead m2 (st.r0 + 4)
    r5 := memRead m2 (st.r0 + 5)
    r6 := memRead m2 (st.r0 + 6)
    r7 := memRead m2 (st.r0 + 7)
    r8 := st.r8
    r9 := st.r9
    r10 := st.r10
    r11 := st.r11
    r12 := st.r12
    sp := st.sp
    lr := st.lr
    mem := m2 }

/-- The round-trip property claimed for the context switch: starting
from state `s1` (fiber A running, about to call
`swap_context(tcbA = R0, tcbB = R1, baseA = R2, baseB = R3)`), perform
the switch to B, then have B immediately switch back with
`swap_context(tcbB, tcbA, baseB2, baseA)` (the link register freshly set
by the call).  Afterwards A's thirteen general registers, `SP`, `LR` and
every word of A's active stack slice `[sp, topW)` must hold exactly
their values from `s1`. -/
def roundTripRestoresA (s1 : MachState) (baseB2 lrCall : Nat) : Prop :=
  let s2 := swapContext s1
  let entry2 : MachState :=
    { s2 with r0 := s1.r1, r1 := s1.r0, r2 := baseB2, r3 := s1.r2, lr := lrCall }
  let s3 := swapContext entry2
  s3.r0 = s1.r0 ∧ s3.r1 = s1.r1 ∧ s3.r2 = s1.r2 ∧ s3.r3 = s1.r3 ∧
    s3.r4 = s1.r4 ∧ s3.r5 = s1.r5 ∧ s3.r6 = s1.r6 ∧ s3.r7 = s1.r7 ∧
    s3.r8 = s1.r8 ∧ s3.r9 = s1.r9 ∧ s3.r10 = s1.r10 ∧ s3.r11 = s1.r11 ∧
    s3.r12 = s1.r12 ∧ s3.sp = s1.sp ∧ s3.lr = s1.lr ∧
    (∀ c, s1.sp ≤ c → c < topW → s3.mem c = s1.mem c)

/-- A concrete machine state for fiber A at the moment it calls
`swap_context(100, 200, topW - 1, 300)` with an empty live stack
(`sp = topW`, depth 0) over an all-zero memory. -/
def depthZeroState : MachState :=
  { r0 := 100, r1 := 200, r2 := topW - 1, r3 := 300
    r4 := 4, r5 := 5, r6 := 6, r7 := 7
    r8 := 8, r9 := 9, r10 := 10, r11 := 11, r12 := 12
    sp := topW, lr := 999, mem := fun _ => 0 }

/-! ## Helper lemmas about `listen` and `send` -/

/-- If a node satisfying the dedup condition occurs before any node with
a larger id, the dedup scan of `listen` reports a hit. -/
theorem dedupScan_of_covered (pre post : List MicroBitListener)
    (l : MicroBitListener) (id value : Int) (cb : Nat)
    (hpre : ∀ x ∈ pre, x.id ≤ id) (hl : l.id ≤ id) (hcb : l.cb = cb)
    (hid : l.id = id ∨ l.id = MICROBIT_BUS_ID_ANY)
    (hval : l.value = value ∨ l.value = MICROBIT_BUS_VALUE_ANY) :
    dedupScan (pre ++ l :: post) id value cb = true := by
  induction pre with
  | nil =>
    simp only [List.nil_append, dedupScan, if_pos hl]
    rw [if_pos ⟨hcb, hid, hval⟩]
  | cons x xs ih =>
    have hx : x.id ≤ id := hpre x (by simp)
    simp only [List.cons_append, dedupScan, if_pos hx]
    split
    · rfl
    · exact ih (fun y hy => hpre y (by simp [hy]))

/-- A `listen` call that does not hit the dedup scan always changes the
listener chain. -/
theorem listen_changes_of_miss (bus : MicroBitMessageBus) (id value : Int) (cb : Nat)
    (h : dedupScan bus.listeners id value cb = false) :
    (bus.listen id value cb).listeners ≠ bus.listeners := by
  unfold MicroBitMessageBus.listen
  rw [h]
  simp only [Bool.false_eq_true, if_false]
  by_cases hpre : (bus.listeners.takeWhile (insertScanPred id value)).isEmpty
  · rw [if_pos hpre]
    intro hEq
    simp only at hEq
    rw [← hEq] at h
    simp [dedupScan] at h
  · rw [if_neg hpre]
    intro hEq
    simp only at hEq
    have hlen := congrArg List.length hEq
    rw [List.length_append, List.length_cons] at hlen
    conv_rhs at hlen => rw [← List.takeWhile_append_dropWhile
      (p := insertScanPred id value) (l := bus.listeners)]
    rw [List.length_append] at hlen
    omega

/-- On a chain with nondecreasing ids whose ids are all at least `s`,
the `takeWhile id = s` walk collects exactly the listeners with id `s`. -/
theorem takeWhile_eq_filter_of_lb (s : Int) (ls : List MicroBitListener)
    (hmono : ls.Pairwise (fun a b => a.id ≤ b.id))
    (hlb : ∀ l ∈ ls, s ≤ l.id) :
    ls.takeWhile (fun l => decide (l.id = s)) =
      ls.filter (fun l => decide (l.id = s)) := by
  induction ls with
  | nil => rfl
  | cons h t ih =>
    rcases List.pairwise_cons.mp hmono with ⟨hh, ht⟩
    by_cases hid : h.id = s
    · simp only [List.takeWhile_cons, List.filter_cons, hid, decide_True, if_true]
      rw [ih ht (fun l hl => hlb l (by simp [hl]))]
    · have hlt : s < h.id := lt_of_le_of_ne (hlb h (by simp)) (fun hEq => hid hEq.symm)
      simp only [List.takeWhile_cons, List.filter_cons, hid, decide_False,
        Bool.false_eq_true, if_false]
      symm
      rw [List.filter_eq_nil_iff]
      intro a ha
      have : h.id ≤ a.id := hh a ha
      simp only [decide_eq_true_eq]
      omega

/-- On a chain with nondecreasing ids, scanning past the ids different
from `s` and then walking while the id stays `s` visits exactly the
listeners with id `s`. -/
theorem dropWhile_takeWhile_eq_filter (s : Int) (ls : List MicroBitListener)
    (hmono : ls.Pairwise (fun a b => a.id ≤ b.id)) :
    ((ls.dropWhile (fun l => decide (l.id ≠ s))).takeWhile
        (fun l => decide (l.id = s))) =
      ls.filter (fun l => decide (l.id = s)) := by
  induction ls with
  | nil => rfl
  | cons h t ih =>
    rcases List.pairwise_cons.mp hmono with ⟨hh, ht⟩
    by_cases hid : h.id = s
    · simp only [List.dropWhile_cons, hid, ne_eq, not_true_eq_false, decide_False,
        Bool.false_eq_true, if_false, List.takeWhile_cons, decide_True, if_true,
        List.filter_cons]
      rw [takeWhile_eq_filter_of_lb s t ht (fun l hl => hid ▸ hh l hl)]
    · simp only [List.dropWhile_cons, hid, ne_eq, not_false_eq_true, decide_True, if_true,
        List.filter_cons, decide_False, Bool.false_eq_true, if_false]
      exact ih ht

/-! ## Claims about the message bus -/

/-- Claim C1, counterexample: with the listener `(ANY_SOURCE, 7, cbC)`
registered (callback 102), sending `Event{source = 5, value = 9}` spawns
a fiber for that listener even though its value filter matches neither
the event value nor the any-value sentinel — the any-source walk of
`send` performs no value-filter test, so `send` does not spawn exactly
the matching listeners. -/
theorem C1_counterexample :
    ((MicroBitMessageBus.new.listen 0 7 102).send ⟨5, 9⟩ none).1 =
        [⟨0, 7, 102⟩] ∧
      ¬ specMatches ⟨0, 7, 102⟩ ⟨5, 9⟩ := by
  decide

/-- Claim C1, amended: for a registry that is sorted by (sourceId,
valueFilter) with no id below the any-source sentinel, and an event
whose source is not the any-source sentinel, `send` spawns one fiber
for each listener whose sourceId equals the event source and whose
valueFilter equals the event value or the any-value sentinel, followed
by one fiber for each any-source listener regardless of its value
filter. -/
theorem C1_send_dispatch (bus : MicroBitMessageBus) (evt : MicroBitEvent)
    (hsort : RegistrySorted bus.listeners)
    (hpos : ∀ l ∈ bus.listeners, MICROBIT_BUS_ID_ANY ≤ l.id)
    (_hsrc : evt.source ≠ MICROBIT_BUS_ID_ANY) :
    (bus.send evt none).1 =
      bus.listeners.filter
          (fun l => decide (l.id = evt.source ∧
            (l.value = MICROBIT_BUS_VALUE_ANY ∨ l.value = evt.value))) ++
        bus.listeners.filter (fun l => decide (l.id = MICROBIT_BUS_ID_ANY)) := by
  have hmono : bus.listeners.Pairwise (fun a b => a.id ≤ b.id) := by
    refine hsort.imp ?_
    rintro a b (h | ⟨h, _⟩)
    · exact le_of_lt h
    · exact le_of_eq h
  unfold MicroBitMessageBus.send
  simp only []
  congr 1
  · rw [dropWhile_takeWhile_eq_filter evt.source bus.listeners hmono,
      List.filter_filter]
    congr 1
    funext l
    rw [Bool.decide_and, Bool.and_comm]
  · exact takeWhile_eq_filter_of_lb MICROBIT_BUS_ID_ANY bus.listeners hmono hpos

/-- Witness for `C1_send_dispatch`: the spec's three-listener example
registry, with event `{source = 5, value = 7}`. -/
theorem C1_send_dispatch_witness :
    RegistrySorted [⟨0, 7, 102⟩, ⟨5, 0, 101⟩, ⟨5, 7, 100⟩] ∧
      (∀ l ∈ ([⟨0, 7, 102⟩, ⟨5, 0, 101⟩, ⟨5, 7, 100⟩] : List MicroBitListener),
        MICROBIT_BUS_ID_ANY ≤ l.id) ∧
      (5 : Int) ≠ MICROBIT_BUS_ID_ANY ∧
      ((⟨[⟨0, 7, 102⟩, ⟨5, 0, 101⟩, ⟨5, 7, 100⟩], 3⟩ :
          MicroBitMessageBus).send ⟨5, 7⟩ none).1 =
        ([⟨0, 7, 102⟩, ⟨5, 0, 101⟩, ⟨5, 7, 100⟩] :
            List MicroBitListener).filter
            (fun l => decide (l.id = 5 ∧
              (l.value = MICROBIT_BUS_VALUE_ANY ∨ l.value = 7))) ++
          ([⟨0, 7, 102⟩, ⟨5, 0, 101⟩, ⟨5, 7, 100⟩] :
              List MicroBitListener).filter
            (fun l => decide (l.id = MICROBIT_BUS_ID_ANY)) :=
  ⟨by decide, by decide, by decide,
    C1_send_dispatch ⟨[⟨0, 7, 102⟩, ⟨5, 0, 101⟩, ⟨5, 7, 100⟩], 3⟩ ⟨5, 7⟩
      (by decide) (by decide) (by decide)⟩

/-- Claim C3, code bug evidence: the insertion scan of `listen` stops as
soon as a node fails `l->value <= value` even when later nodes have
smaller ids, so from an empty registry the calls `listen(1,1,·)`,
`listen(2,5,·)`, `listen(3,1,·)` leave the chain
`[(1,1), (3,1), (2,5)]`, which is not sorted by (sourceId, valueFilter)
— contradicting the source comment "Chain is held stictly in increasing
order of ID (first level), then value code (second level)". -/
theorem C3_registry_unsorted_evidence :
    (((MicroBitMessageBus.new.listen 1 1 10).listen 2 5 11).listen 3 1 12).listeners =
        [⟨1, 1, 10⟩, ⟨3, 1, 12⟩, ⟨2, 5, 11⟩] ∧
      ¬ RegistrySorted
        (((MicroBitMessageBus.new.listen 1 1 10).listen 2 5 11).listen 3 1 12).listeners := by
  decide

/-- Claim C4, counterexample: in the reachable registry
`[(1,1,10), (3,1,12), (2,5,11)]` the exact triple `(2,5,11)` is present,
yet `listen(2,5,11)` is not a no-op — the dedup scan stops at the node
`(3,1,12)` (id above 2) before reaching the duplicate, and a second copy
is inserted. -/
theorem C4_counterexample :
    (⟨2, 5, 11⟩ : MicroBitListener) ∈
        (((MicroBitMessageBus.new.listen 1 1 10).listen 2 5 11).listen 3 1 12).listeners ∧
      ((((MicroBitMessageBus.new.listen 1 1 10).listen 2 5 11).listen 3 1 12).listen 2 5 11) ≠
        (((MicroBitMessageBus.new.listen 1 1 10).listen 2 5 11).listen 3 1 12) := by
  decide

/-- Claim C4, amended: `listen(id, value, cb)` leaves the bus exactly
unchanged whenever a node with callback `cb` whose sourceId is `id` or
the any-source sentinel and whose valueFilter is `value` or the
any-value sentinel occurs in the chain before any node with sourceId
greater than `id` (in particular this covers both concrete scenarios of
the claim: an identical re-registration against a sorted chain, and a
registration subsumed by an (ANY, ANY) entry). -/
theorem C4_listen_idempotent (bus : MicroBitMessageBus) (id value : Int) (cb : Nat)
    (h : ∃ pre l post, bus.listeners = pre ++ l :: post ∧
      (∀ x ∈ pre, x.id ≤ id) ∧ l.id ≤ id ∧ l.cb = cb ∧
      (l.id = id ∨ l.id = MICROBIT_BUS_ID_ANY) ∧
      (l.value = value ∨ l.value = MICROBIT_BUS_VALUE_ANY)) :
    bus.listen id value cb = bus := by
  rcases h with ⟨pre, l, post, hsplit, hpre, hl, hcb, hid, hval⟩
  unfold MicroBitMessageBus.listen
  rw [hsplit, dedupScan_of_covered pre post l id value cb hpre hl hcb hid hval]
  simp

/-- Witness for `C4_listen_idempotent`: the claim's subsumption scenario
`listen(ANY_SOURCE, ANY_VALUE, cb)` followed by `listen(5, 7, cb)`. -/
theorem C4_listen_idempotent_witness :
    (MicroBitMessageBus.new.listen 0 0 10).listen 5 7 10 =
      MicroBitMessageBus.new.listen 0 0 10 :=
  C4_listen_idempotent (MicroBitMessageBus.new.listen 0 0 10) 5 7 10
    ⟨[], ⟨0, 0, 10⟩, [], by decide, by decide, by decide, by decide, by decide, by decide⟩

/-- Claim C6, code bug evidence: `listen(5,7,·)` then `listen(3,1,·)`
ends with the registry `[(3,1)]` alone — inserting at the head of the
chain assigns `listeners = newListener` while `newListener->next` is
still `NULL`, so the listener `(5,7)` that was present before the call
is no longer reachable; the registry does not only grow. -/
theorem C6_registry_drop_evidence :
    (MicroBitMessageBus.new.listen 5 7 10).listeners = [⟨5, 7, 10⟩] ∧
      ((MicroBitMessageBus.new.listen 5 7 10).listen 3 1 11).listeners = [⟨3, 1, 11⟩] ∧
      (⟨5, 7, 10⟩ : MicroBitListener) ∉
        ((MicroBitMessageBus.new.listen 5 7 10).listen 3 1 11).listeners := by
  decide

/-- Claim C7: the registry version starts at zero; a `listen` call never
decreases it; a call that leaves the listener chain unchanged leaves the
version unchanged, and a call that changes the chain (an insertion)
increments it exactly once. -/
theorem C7_version_counter :
    MicroBitMessageBus.new.seq = 0 ∧
      (∀ (bus : MicroBitMessageBus) (id value : Int) (cb : Nat),
        bus.seq ≤ (bus.listen id value cb).seq) ∧
      (∀ (bus : MicroBitMessageBus) (id value : Int) (cb : Nat),
        (bus.listen id value cb).listeners = bus.listeners →
          (bus.listen id value cb).seq = bus.seq) ∧
      (∀ (bus : MicroBitMessageBus) (id value : Int) (cb : Nat),
        (bus.listen id value cb).listeners ≠ bus.listeners →
          (bus.listen id value cb).seq = bus.seq + 1) := by
  refine ⟨rfl, ?_, ?_, ?_⟩
  · intro bus id value cb
    unfold MicroBitMessageBus.listen
    by_cases hdup : dedupScan bus.listeners id value cb = true
    · rw [if_pos hdup]
    · rw [if_neg hdup]
      by_cases hpre : (bus.listeners.takeWhile (insertScanPred id value)).isEmpty
      · rw [if_pos hpre]
        simp
      · rw [if_neg hpre]
        simp
  · intro bus id value cb hEq
    by_cases hdup : dedupScan bus.listeners id value cb
    · unfold MicroBitMessageBus.listen
      rw [hdup]
      simp
    · exact absurd hEq (listen_changes_of_miss bus id value cb (by simpa using hdup))
  · intro bus id value cb hne
    by_cases hdup : dedupScan bus.listeners id value cb
    · exfalso
      apply hne
      unfold MicroBitMessageBus.listen
      rw [hdup]
      simp
    · unfold MicroBitMessageBus.listen
      rw [Bool.not_eq_true] at hdup
      rw [hdup]
      simp only [Bool.false_eq_true, if_false]
      split <;> rfl

/-- Witness for `C7_version_counter`: a fresh insertion moves the
version from 0 to 1. -/
theorem C7_version_counter_witness :
    (MicroBitMessageBus.new.listen 5 7 10).listeners ≠
        MicroBitMessageBus.new.listeners ∧
      (MicroBitMessageBus.new.listen 5 7 10).seq = MicroBitMessageBus.new.seq + 1 :=
  ⟨by decide, C7_version_counter.2.2.2 MicroBitMessageBus.new 5 7 10 (by decide)⟩

/-- Claim C8, code bug evidence: registering the set
`{(5,7,cbA), (ANY,7,cbC)}` in its two orders yields different final
registries — `(5,7)` then `(0,7)` leaves only `[(0,7)]` (the head
insertion drops the chain), while `(0,7)` then `(5,7)` leaves both
listeners — so registration is not order-independent. -/
theorem C8_order_dependence_evidence :
    ((MicroBitMessageBus.new.listen 5 7 10).listen 0 7 12).listeners =
        [⟨0, 7, 12⟩] ∧
      ((MicroBitMessageBus.new.listen 0 7 12).listen 5 7 10).listeners =
        [⟨0, 7, 12⟩, ⟨5, 7, 10⟩] ∧
      ((MicroBitMessageBus.new.listen 5 7 10).listen 0 7 12).listeners ≠
        ((MicroBitMessageBus.new.listen 0 7 12).listen 5 7 10).listeners := by
  decide

/-- Claim C5: when `send` is given a cache, a version mismatch makes it
ignore the cached node — the dispatch trace is the one a cache-less
`send` produces — and before returning it overwrites the cache with the
node found by the head scan together with the current version; a version
match leaves the cache untouched and starts the source-specific walk at
the cached node. -/
theorem C5_cache_validity (bus : MicroBitMessageBus) (evt : MicroBitEvent)
    (c : MicroBitMessageBusCache) :
    (c.seq ≠ bus.seq →
      (bus.send evt (some c)).1 = (bus.send evt none).1 ∧
        (bus.send evt (some c)).2 =
          some ⟨bus.listeners.dropWhile (fun l => decide (l.id ≠ evt.source)),
            bus.seq⟩) ∧
    (c.seq = bus.seq →
      (bus.send evt (some c)).2 = some c ∧
        (bus.send evt (some c)).1 =
          (c.ptr.takeWhile (fun l => decide (l.id = evt.source))).filter
              (fun l => decide (l.value = MICROBIT_BUS_VALUE_ANY ∨
                l.value = evt.value)) ++
            bus.listeners.takeWhile
              (fun l => decide (l.id = MICROBIT_BUS_ID_ANY))) := by
  constructor
  · intro hne
    simp [MicroBitMessageBus.send, hne]
  · intro hEq
    simp [MicroBitMessageBus.send, hEq]

/-- Witness for `C5_cache_validity`: a cache captured at version 1 and
used after a further `listen` call has moved the bus to version 2
triggers a head rescan and leaves the cache holding version 2. -/
theorem C5_cache_validity_witness :
    ((⟨[⟨5, 7, 10⟩], 1⟩ : MicroBitMessageBusCache).seq ≠
        ((MicroBitMessageBus.new.listen 5 7 10).listen 6 1 11).seq) ∧
      (((MicroBitMessageBus.new.listen 5 7 10).listen 6 1 11).send ⟨5, 7⟩
          (some ⟨[⟨5, 7, 10⟩], 1⟩)).1 =
        (((MicroBitMessageBus.new.listen 5 7 10).listen 6 1 11).send ⟨5, 7⟩ none).1 ∧
      (((MicroBitMessageBus.new.listen 5 7 10).listen 6 1 11).send ⟨5, 7⟩
          (some ⟨[⟨5, 7, 10⟩], 1⟩)).2 =
        some ⟨((MicroBitMessageBus.new.listen 5 7 10).listen 6 1 11).listeners.dropWhile
            (fun l => decide (l.id ≠ (5 : Int))),
          ((MicroBitMessageBus.new.listen 5 7 10).listen 6 1 11).seq⟩ :=
  ⟨by decide,
    (C5_cache_validity ((MicroBitMessageBus.new.listen 5 7 10).listen 6 1 11)
        ⟨5, 7⟩ ⟨[⟨5, 7, 10⟩], 1⟩).1 (by decide)⟩

/-- Claim C10 (implicit behaviour): when the supplied cache is
version-valid but its cached node's sourceId differs from the event
source (or the cached node is the null chain), `send` starts the
source-specific walk there without rescanning, its walk guard fails at
once, and the dispatch trace contains no listener whose sourceId equals
the event source — no matter which source-specific listeners the
registry holds. -/
theorem C10_stale_cache_miss (bus : MicroBitMessageBus) (evt : MicroBitEvent)
    (c : MicroBitMessageBusCache)
    (hseq : c.seq = bus.seq)
    (hsrc : evt.source ≠ MICROBIT_BUS_ID_ANY)
    (hptr : ∀ l, c.ptr.head? = some l → l.id ≠ evt.source) :
    ((bus.send evt (some c)).1).filter (fun l => decide (l.id = evt.source)) = [] := by
  simp only [MicroBitMessageBus.send, hseq, if_pos rfl]
  rw [List.filter_append, List.filter_eq_nil_iff.mpr, List.filter_eq_nil_iff.mpr,
    List.append_nil]
  · intro a ha
    have hid : a.id = MICROBIT_BUS_ID_ANY := by
      have := List.mem_takeWhile_imp ha
      simpa using this
    simp only [decide_eq_true_eq]
    rw [hid]
    exact fun hEq => hsrc hEq.symm
  · intro a ha
    exfalso
    cases hp : c.ptr with
    | nil =>
      rw [hp] at ha
      simp at ha
    | cons x xs =>
      have hxid : x.id ≠ evt.source := hptr x (by rw [hp]; rfl)
      rw [hp] at ha
      simp [hxid] at ha

/-- Witness for `C10_stale_cache_miss`: the registry holds the listener
`(5,7,cb)`, the event has source 5, and a version-valid cache pointing
at a node with sourceId 9 makes `send` issue no spawn for it. -/
theorem C10_stale_cache_miss_witness :
    ((MicroBitMessageBus.new.listen 5 7 10).send ⟨5, 7⟩
          (some ⟨[⟨9, 1, 11⟩], 1⟩)).1.filter
        (fun l => decide (l.id = (5 : Int))) = [] :=
  C10_stale_cache_miss (MicroBitMessageBus.new.listen 5 7 10) ⟨5, 7⟩
    ⟨[⟨9, 1, 11⟩], 1⟩ (by decide) (by decide)
    (fun l hl => by
      have h2 : (⟨9, 1, 11⟩ : MicroBitListener) = l := by simpa using hl
      rw [← h2]
      decide)

/-! ## Helper lemmas about the machine model -/

theorem W_pos : 0 < W := by decide

theorem topW_lt_W : topW < W := by decide

theorem wsub1_lt (x : Nat) : wsub1 x < W := by
  unfold wsub1
  exact Nat.mod_lt _ W_pos

theorem wsub1_of_pos (x : Nat) (h0 : 0 < x) (hW : x < W) : wsub1 x = x - 1 := by
  unfold wsub1 W at *
  omega

theorem memWrite_app (m : Mem) (a v c : Nat) :
    memWrite m a v c = if c = a % W then v else m c := rfl

theorem memRead_app (m : Mem) (a : Nat) (h : a < W) : memRead m a = m a := by
  unfold memRead
  rw [Nat.mod_eq_of_lt h]

/-- Rewriting the body of a copy-loop iteration in wrap-free form. -/
theorem copyLoop_succ (n d s : Nat) (m : Mem) :
    copyLoop (n + 1) d s m =
      copyLoop n (wsub1 d) (wsub1 s) (memWrite m (wsub1 d) (memRead m (wsub1 s))) := rfl

/-- Copying a cell onto itself leaves memory unchanged, so a copy loop
whose destination and source pointers coincide is the identity. -/
theorem copyLoop_same (n : Nat) : ∀ (d : Nat) (m : Mem), copyLoop n d d m = m := by
  induction n with
  | zero => intro d m; rfl
  | succ n ih =>
    intro d m
    rw [copyLoop_succ]
    have hm : memWrite m (wsub1 d) (memRead m (wsub1 d)) = m := by
      funext c
      rw [memWrite_app]
      split
      · next hc =>
          unfold memRead
          rw [hc]
      · rfl
    rw [hm, ih]

/-- A copy loop over an all-zero memory only ever reads and writes
zeros, so the memory stays all-zero. -/
theorem copyLoop_zero (n : Nat) : ∀ (d s : Nat) (m : Mem), (∀ c, m c = 0) →
    ∀ c, copyLoop n d s m c = 0 := by
  induction n with
  | zero => intro d s m hm c; exact hm c
  | succ n ih =>
    intro d s m hm c
    rw [copyLoop_succ]
    refine ih _ _ _ ?_ c
    intro c2
    rw [memWrite_app]
    split
    · unfold memRead
      exact hm _
    · exact hm c2

/-- `iterCount` for a live stack of positive depth. -/
theorem iterCount_of_lt (sp : Nat) (h : sp < topW) : iterCount sp = topW - sp := by
  unfold iterCount topW W at *
  dsimp only
  split_ifs with h0 <;> omega

/-- With an empty live stack (`sp = topW`) the do-while copy loops run a
full wrap of the word address space. -/
theorem iterCount_topW : iterCount topW = W := by decide

theorem iterCount_zero : iterCount 0 = topW := by decide
